import Mathlib

/-!
Verification of the room/session coordinator of the Pictionary Hotline
server (src/server.js).  The JavaScript server is shallowly embedded as
pure Lean functions: each WebSocket event handler becomes a function
from the room state (and the inbound message) to the new room state
together with the list of outbound actions (messages sent to the phone
channel or to individual web sockets, and socket closes).  JavaScript
strings are modelled as Lean strings (lists of characters); the ASCII
fragments of toLowerCase, trim, the regexes \w and \s, split and
includes are modelled character by character, which covers every string
the server itself manipulates.
-/

namespace Hotline

/-! ## JavaScript string primitives -/

/-- The character class matched by the regex \s, restricted to the four
whitespace characters that occur in this code base. -/
def isJsWs (c : Char) : Bool :=
  c = ' ' || c = '\t' || c = '\n' || c = '\r'

/-- The character class matched by the regex \w : ASCII letters, digits
and the underscore. -/
def isWordChar (c : Char) : Bool :=
  ('a' ≤ c && c ≤ 'z') || ('A' ≤ c && c ≤ 'Z') || ('0' ≤ c && c ≤ '9') || c = '_'

/-- ASCII lower-casing of one character, as String.prototype.toLowerCase
acts on ASCII input. -/
def lowerChar (c : Char) : Char :=
  if 'A' ≤ c && c ≤ 'Z' then Char.ofNat (c.toNat + 32) else c

/-- s.toLowerCase() on ASCII input. -/
def jsToLower (s : String) : String :=
  ⟨s.data.map lowerChar⟩

/-- List-level both-ends trim used to model String.prototype.trim. -/
def trimL (l : List Char) : List Char :=
  ((l.dropWhile isJsWs).reverse.dropWhile isJsWs).reverse

/-- s.trim(). -/
def jsTrim (s : String) : String :=
  ⟨trimL s.data⟩

/-- Does the needle occur at the head of the haystack. -/
def leadMatch : List Char → List Char → Bool
  | [], _ => true
  | _ :: _, [] => false
  | a :: n, b :: h => a = b && leadMatch n h

/-- Does the needle occur anywhere in the haystack (substring test). -/
def occursIn (needle : List Char) : List Char → Bool
  | [] => needle.isEmpty
  | b :: h => leadMatch needle (b :: h) || occursIn needle h

/-- s.includes(t). -/
def jsIncludes (s t : String) : Bool :=
  occursIn t.data s.data

/-- s.split(" ")[0] : the characters of s before the first space
character (the whole of s when it has no space). -/
def jsSplitFirst (s : String) : String :=
  ⟨s.data.takeWhile (fun c => c ≠ ' ')⟩

/-- s.split("\n")[0] : the characters of s before the first newline. -/
def jsFirstLine (s : String) : String :=
  ⟨s.data.takeWhile (fun c => c ≠ '\n')⟩

/-- The character map of text.replace(/[^\w\s]/g, " ") : word and
whitespace characters stay, everything else becomes a space. -/
def normChar (c : Char) : Char :=
  if isWordChar c || isJsWs c then c else ' '

/-- text.replace(/[^\w\s]/g, " ") as used on a caller guess. -/
def normalizeGuess (s : String) : String :=
  ⟨s.data.map normChar⟩

/-- The test /random/i.test(s) : the lower-cased string contains the
substring random. -/
def testRandom (s : String) : Bool :=
  jsIncludes (jsToLower s) "random"

/-! ## Data model (from getRoom in src/server.js) -/

/-- One stored line segment, the {x1,y1,x2,y2} record pushed onto
room.drawSegments. -/
structure Segment where
  x1 : Int
  y1 : Int
  x2 : Int
  y2 : Int
deriving DecidableEq, Repr

/-- The two values taken by room.mode: the menu and the pictionary
(active-round) mode. -/
inductive Mode where
  | menu
  | pictionary
deriving DecidableEq, Repr

/-- Outbound payloads sent to a web socket, one constructor per value of
the type field of the JSON objects the server sends on /ws-web. -/
inductive WebMsg where
  | status (message : String)
  | menu
  | initDrawing (segments : List Segment)
  | pictionaryStart (word : String)
  | roundResult (outcome : String) (word : String)
  | guess (g : String) (correct : Bool)
  | drawerChat (text : String)
  | clearCanvas
  | drawSegment (seg : Segment)
deriving DecidableEq, Repr

/-- Observable effects of one handler run: a spoken-text payload sent to
the phone socket, a payload sent to one web socket (identified by a
numeric socket id), or closing the phone socket. -/
inductive Action where
  | toPhone (sock : Nat) (token : String)
  | toWeb (sock : Nat) (msg : WebMsg)
  | closePhone (sock : Nat)
deriving DecidableEq, Repr

/-- The per-room state created by getRoom.  Sockets are identified by
numbers; an empty slot is none. -/
structure Room where
  id : String
  phoneSocket : Option Nat
  drawerSocket : Option Nat
  callerSocket : Option Nat
  mode : Mode
  targetWord : Option String
  drawSegments : List Segment
  theme : Option String
deriving DecidableEq, Repr

/-- The fresh room built by getRoom on first lookup of an id. -/
def freshRoom (id : String) : Room :=
  { id := id
    phoneSocket := none
    drawerSocket := none
    callerSocket := none
    mode := Mode.menu
    targetWord := none
    drawSegments := []
    theme := none }

/-- resetRoom: back to menu with cleared word, theme and drawing. -/
def resetRoom (room : Room) : Room :=
  { room with
    mode := Mode.menu
    targetWord := none
    theme := none
    drawSegments := [] }

/-- The static fallback word list PICTIONARY_WORDS. -/
def PICTIONARY_WORDS : List String :=
  ["bear", "spaceship", "pizza", "guitar", "castle"]

/-- pickRandomWord: list[Math.floor(Math.random()*list.length)], with
the random draw supplied as a natural number reduced modulo the list
length. -/
def pickRandomWord (list : List String) (idx : Nat) : String :=
  list.getD (idx % list.length) ""

/-- sendToPhone: no-op without a phone socket, otherwise one
text/token/last payload. -/
def sendToPhone (room : Room) (text : String) : List Action :=
  match room.phoneSocket with
  | none => []
  | some p => [Action.toPhone p text]

/-- sendToWeb: the same payload to the drawer socket and the caller
socket, skipping empty slots. -/
def sendToWeb (room : Room) (payload : WebMsg) : List Action :=
  (match room.drawerSocket with
   | none => []
   | some d => [Action.toWeb d payload]) ++
  (match room.callerSocket with
   | none => []
   | some c => [Action.toWeb c payload])

/-! ## Word generation and the game state machine -/

/-- The nondeterministic inputs of one handlePhonePrompt run: whether
OPENAI_API_KEY is set, the outcome of the openai call (error models a
thrown error or timeout, ok carries the returned text), and the two
Math.random draws that pickRandomWord may consume. -/
structure GenEnv where
  hasApiKey : Bool
  oracle : Except Unit String
  idx : Nat
  idx2 : Nat
deriving Repr

/-- generatePictionaryWord: trim the theme; without an API key, with an
empty or random-matching theme, with a failed call, or with an empty
first line of the reply, fall back to the static list; otherwise return
the trimmed first line of the reply. -/
def generatePictionaryWord (env : GenEnv) (themeRaw : String) : String :=
  let theme := jsTrim themeRaw
  if !env.hasApiKey then
    pickRandomWord PICTIONARY_WORDS env.idx
  else if theme = "" || testRandom theme then
    pickRandomWord PICTIONARY_WORDS env.idx
  else
    match env.oracle with
    | Except.error _ => pickRandomWord PICTIONARY_WORDS env.idx
    | Except.ok replyText =>
      let raw := jsTrim replyText
      let firstLine := jsTrim (jsFirstLine raw)
      if firstLine = "" then pickRandomWord PICTIONARY_WORDS env.idx
      else firstLine

/-- Phone message sent by startPictionary. -/
def greatChoiceMsg : String :=
  "Great choice. Your word has been selected. Your partner will draw something on their screen. Try to guess what it is by saying your guesses out loud."

/-- Phone message sent by backToMenu. -/
def roundCompleteMsg : String :=
  "Round complete. Say a theme for the next word (for example: animals, Halloween, space, food), or say Random for any word, or say Quit to end the call."

/-- Farewell read to the caller on a quit or exit utterance. -/
def farewellMsg : String :=
  "Thanks for joining. We here at the Pictionary Hotline appreciate that you had better ways to use your time. Goodbye."

/-- Acknowledgement of the spoken theme. -/
def niceThemeMsg (textRaw : String) : String :=
  "Nice theme! We will find a word related to: " ++ textRaw ++ " for the Drawer to draw."

/-- Phone message on a correct guess. -/
def correctMsg (word : String) : String :=
  "You got it! The word was " ++ word ++ ". Nice job!"

/-- Phone message on a wrong guess. -/
def tryAgainMsg : String :=
  "Not quite right. Guess again."

/-- startPictionary: enter pictionary mode, set the target word
(explicit word when truthy, otherwise a random list word), clear the
drawing, instruct the phone, broadcast pictionaryStart with the word to
both web slots. -/
def startPictionary (room : Room) (idx2 : Nat) (explicitWord : Option String) :
    Room × List Action :=
  let word :=
    match explicitWord with
    | none => pickRandomWord PICTIONARY_WORDS idx2
    | some s => if s = "" then pickRandomWord PICTIONARY_WORDS idx2 else s
  let room1 := { room with
    mode := Mode.pictionary
    targetWord := some word
    drawSegments := [] }
  (room1,
   sendToPhone room1 greatChoiceMsg ++
   sendToWeb room1 (WebMsg.pictionaryStart word))

/-- backToMenu: clear mode, word and theme (the drawing stays), tell the
phone and broadcast a menu event. -/
def backToMenu (room : Room) : Room × List Action :=
  let room1 := { room with
    mode := Mode.menu
    targetWord := none
    theme := none }
  (room1,
   sendToPhone room1 roundCompleteMsg ++
   sendToWeb room1 WebMsg.menu)

/-- The guess test of handlePhonePrompt: the target is truthy and the
normalized utterance contains the part of the lower-cased target before
its first space. -/
def guessMatches (targetWord : Option String) (text : String) : Bool :=
  let target := jsToLower (targetWord.getD "")
  let normalized := normalizeGuess text
  target ≠ "" && jsIncludes normalized (jsSplitFirst target)

/-- handlePhonePrompt: drop empty utterances; quit or exit says farewell
and closes the phone socket; in menu mode the utterance is the theme and
a round starts with the generated word; in pictionary mode the utterance
is judged as a guess. -/
def handlePhonePrompt (room : Room) (env : GenEnv) (textRaw : String) :
    Room × List Action :=
  let text := jsTrim (jsToLower textRaw)
  if text = "" then (room, [])
  else if jsIncludes text "quit" || jsIncludes text "exit" then
    (room,
     sendToPhone room farewellMsg ++
     (match room.phoneSocket with
      | none => []
      | some p => [Action.closePhone p]))
  else if room.mode = Mode.menu then
    let room1 := { room with theme := some textRaw }
    let word := generatePictionaryWord env textRaw
    let res := startPictionary room1 env.idx2 (some word)
    (res.1, sendToPhone room1 (niceThemeMsg textRaw) ++ res.2)
  else
    if guessMatches room.targetWord text then
      let acts :=
        sendToPhone room (correctMsg (room.targetWord.getD "")) ++
        sendToWeb room (WebMsg.roundResult "correct" (room.targetWord.getD ""))
      let res := backToMenu room
      (res.1, acts ++ res.2)
    else
      (room,
       sendToPhone room tryAgainMsg ++
       sendToWeb room (WebMsg.guess textRaw false))

/-! ## Socket lifecycle and web message handlers -/

/-- Status text sent to the browsers when the caller connects. -/
def callerConnectedMsg (roomId : String) : String :=
  "Caller connected to room " ++ roomId ++ ". Waiting for them to pick a theme."

/-- Status text sent to the browsers when the caller disconnects. -/
def callerDisconnectedMsg (roomId : String) : String :=
  "Caller disconnected from room " ++ roomId ++ ". Room has been reset. Waiting for a new call."

/-- Status text for a web join while the phone is attached, by mode. -/
def joinStatusWithPhone (roomId : String) (mode : Mode) : String :=
  match mode with
  | Mode.pictionary => "Caller is on the line in this room. Pictionary round in progress."
  | Mode.menu => "Connected to room " ++ roomId ++ ". Caller is on the line and can pick a theme."

/-- Status text for a web join while no phone is attached. -/
def joinStatusNoPhone (roomId : String) : String :=
  "Connected to room " ++ roomId ++ ". Waiting for caller to dial the hotline and enter this room code."

/-- The /ws connection handler: attach the phone socket and broadcast a
status event to the browsers. -/
def phoneOpen (room : Room) (sock : Nat) : Room × List Action :=
  let room1 := { room with phoneSocket := some sock }
  (room1, sendToWeb room1 (WebMsg.status (callerConnectedMsg room.id)))

/-- The /ws close handler body for one room: detach the phone socket,
reset the room, broadcast a status event then a menu event. -/
def phoneCloseRoom (room : Room) : Room × List Action :=
  let room1 := resetRoom { room with phoneSocket := none }
  (room1,
   sendToWeb room1 (WebMsg.status (callerDisconnectedMsg room.id)) ++
   sendToWeb room1 WebMsg.menu)

/-- The joinWeb branch of the /ws-web message handler: claim the drawer
or caller slot (any role other than caller becomes drawer), send the
status payload, replay the stored drawing when non-empty, then send the
mode-appropriate state event to the joining socket. -/
def joinWeb (room : Room) (sock : Nat) (roleRaw : String) : Room × List Action :=
  let role := if jsToLower roleRaw = "caller" then "caller" else "drawer"
  let room1 :=
    if role = "drawer" then { room with drawerSocket := some sock }
    else { room with callerSocket := some sock }
  let statusText :=
    match room1.phoneSocket with
    | some _ => joinStatusWithPhone room1.id room1.mode
    | none => joinStatusNoPhone room1.id
  let initActs :=
    if room1.drawSegments.length > 0 then
      [Action.toWeb sock (WebMsg.initDrawing room1.drawSegments)]
    else []
  let stateActs :=
    match room1.mode, room1.targetWord with
    | Mode.pictionary, some w =>
      if w ≠ "" then [Action.toWeb sock (WebMsg.pictionaryStart w)]
      else []
    | Mode.pictionary, none => []
    | Mode.menu, _ => [Action.toWeb sock WebMsg.menu]
  (room1, Action.toWeb sock (WebMsg.status statusText) :: (initActs ++ stateActs))

/-- The drawSegment branch: always push the segment onto
room.drawSegments, and forward it to the caller socket only when it came
from the socket currently in the drawer slot. -/
def drawSegmentHandler (room : Room) (sender : Nat) (seg : Segment) :
    Room × List Action :=
  let room1 := { room with drawSegments := room.drawSegments ++ [seg] }
  let fwd :=
    match room.drawerSocket, room.callerSocket with
    | some d, some c =>
      if sender = d then [Action.toWeb c (WebMsg.drawSegment seg)] else []
    | _, _ => []
  (room1, fwd)

/-- The drawerChat branch: read the text to the phone and echo it to
whichever web slots are attached; the sending socket is never
inspected. -/
def drawerChatHandler (room : Room) (_sender : Nat) (text : String) :
    Room × List Action :=
  (room,
   sendToPhone room text ++
   (match room.drawerSocket with
    | none => []
    | some d => [Action.toWeb d (WebMsg.drawerChat text)]) ++
   (match room.callerSocket with
    | none => []
    | some c => [Action.toWeb c (WebMsg.drawerChat text)]))

/-- The clearCanvas branch: empty the stored drawing and broadcast
clearCanvas to the attached web slots. -/
def clearCanvasHandler (room : Room) : Room × List Action :=
  let room1 := { room with drawSegments := [] }
  (room1,
   (match room.drawerSocket with
    | none => []
    | some d => [Action.toWeb d WebMsg.clearCanvas]) ++
   (match room.callerSocket with
    | none => []
    | some c => [Action.toWeb c WebMsg.clearCanvas]))

/-- The /ws-web close handler: clear whichever slots the closing socket
occupied. -/
def webClose (room : Room) (sock : Nat) : Room × List Action :=
  let room1 :=
    { room with
      drawerSocket := if room.drawerSocket = some sock then none else room.drawerSocket
      callerSocket := if room.callerSocket = some sock then none else room.callerSocket }
  (room1, [])

/-! ## Event loop -/

/-- One inbound event touching a single room. -/
inductive Event where
  | phoneOpen (sock : Nat)
  | phonePrompt (env : GenEnv) (textRaw : String)
  | phoneClose
  | webJoin (sock : Nat) (roleRaw : String)
  | webDraw (sender : Nat) (seg : Segment)
  | webChat (sender : Nat) (text : String)
  | webClear (sender : Nat)
  | webClose (sock : Nat)

/-- Dispatch one event to its handler. -/
def stepRoom (room : Room) (e : Event) : Room × List Action :=
  match e with
  | Event.phoneOpen sock => phoneOpen room sock
  | Event.phonePrompt env textRaw => handlePhonePrompt room env textRaw
  | Event.phoneClose => phoneCloseRoom room
  | Event.webJoin sock roleRaw => joinWeb room sock roleRaw
  | Event.webDraw sender seg => drawSegmentHandler room sender seg
  | Event.webChat sender text => drawerChatHandler room sender text
  | Event.webClear _ => clearCanvasHandler room
  | Event.webClose sock => webClose room sock

/-- Run a list of events, accumulating the emitted actions in order. -/
def runEvents (room : Room) : List Event → Room × List Action
  | [] => (room, [])
  | e :: es =>
    let r1 := stepRoom room e
    let r2 := runEvents r1.1 es
    (r2.1, r1.2 ++ r2.2)

/-- The room reached from a freshly created room after a trace of
events. -/
def runRoom (id : String) (es : List Event) : Room :=
  (runEvents (freshRoom id) es).1

/-- The web payloads delivered to one socket, in order, within a list of
actions. -/
def msgsTo (sock : Nat) (acts : List Action) : List WebMsg :=
  acts.filterMap fun a =>
    match a with
    | Action.toWeb s m => if s = sock then some m else none
    | _ => none

/-! ## Room registry (the rooms Map) -/

/-- The process-wide rooms map, keyed by room id. -/
def Registry := List (String × Room)

/-- rooms.get(id). -/
def lookupRoom : Registry → String → Option Room
  | [], _ => none
  | (k, r) :: t, rid => if k = rid then some r else lookupRoom t rid

/-- rooms.set(id, room). -/
def setRoom : Registry → String → Room → Registry
  | [], rid, room => [(rid, room)]
  | (k, r) :: t, rid, room =>
    if k = rid then (k, room) :: t else (k, r) :: setRoom t rid room

/-- getRoom: return the existing room, creating and registering a fresh
one on first lookup. -/
def getRoom (reg : Registry) (rid : String) : Room × Registry :=
  match lookupRoom reg rid with
  | some r => (r, reg)
  | none => (freshRoom rid, setRoom reg rid (freshRoom rid))

/-- The whole /ws close handler at registry level: look the room up (it
is never removed), run the close body, store the updated room. -/
def phoneCloseOnRegistry (reg : Registry) (rid : String) :
    Registry × List Action :=
  let gr := getRoom reg rid
  let res := phoneCloseRoom gr.1
  (setRoom gr.2 rid res.1, res.2)

/-! ## Invariant and the spec-side guess rule -/

/-- The target-word invariant: in pictionary mode the room holds a
non-empty word, in menu mode none. -/
def wordOk (r : Room) : Bool :=
  match r.mode, r.targetWord with
  | Mode.pictionary, some w => w ≠ ""
  | Mode.menu, none => true
  | _, _ => false

/-- The first whitespace-delimited token of a string: skip leading
whitespace, take until the next whitespace character. -/
def firstWsToken (s : String) : String :=
  ⟨(s.data.dropWhile isJsWs).takeWhile (fun c => !(isJsWs c))⟩

/-- The guess rule as the spec states it (for comparison with the code):
the lower-cased utterance, with punctuation characters replaced by
whitespace, contains the first whitespace-delimited token of the
lower-cased target word as a substring. -/
def specGuessCorrect (targetWord textRaw : String) : Bool :=
  jsIncludes (normalizeGuess (jsToLower textRaw)) (firstWsToken (jsToLower targetWord))

/-! ## Concrete instances used by witnesses and counterexamples -/

/-- An apostrophe character, for building utterances that contain
punctuation. -/
def aposChar : Char := Char.ofNat 39

/-- The utterance with an apostrophe from the regression pair of the
spec. -/
def rubberBandUtterance : String := "it" ++ ⟨[aposChar]⟩ ++ "s a rubber band"

/-- A target word whose first space-delimited chunk differs from its
first whitespace-delimited token because the two words are separated by
a tab. -/
def tabbedTarget : String := "rubber" ++ ⟨['\t']⟩ ++ "duck"

/-- A sample stored segment. -/
def seg0 : Segment := { x1 := 0, y1 := 0, x2 := 10, y2 := 12 }

/-- A second sample segment. -/
def seg1 : Segment := { x1 := 10, y1 := 12, x2 := 4, y2 := 7 }

/-- A third sample segment. -/
def seg2 : Segment := { x1 := 4, y1 := 7, x2 := 9, y2 := 1 }

/-- A fourth sample segment, used as a live stroke after a join. -/
def seg3 : Segment := { x1 := 9, y1 := 1, x2 := 2, y2 := 2 }

/-- An environment whose word-source call fails. -/
def failEnv : GenEnv :=
  { hasApiKey := true, oracle := Except.error (), idx := 2, idx2 := 0 }

/-- A room in the middle of a round, with phone, drawer and caller
attached. -/
def midRoundRoom (w : String) : Room :=
  { id := "4242"
    phoneSocket := some 0
    drawerSocket := some 1
    callerSocket := some 2
    mode := Mode.pictionary
    targetWord := some w
    drawSegments := []
    theme := some "toys" }

/-- A menu-mode room with phone, drawer and caller attached. -/
def menuRoom : Room :=
  { id := "4242"
    phoneSocket := some 0
    drawerSocket := some 1
    callerSocket := some 2
    mode := Mode.menu
    targetWord := none
    drawSegments := []
    theme := none }

/-- A mid-round room with three recorded strokes and a free caller
slot, as in the replay-on-join scenario. -/
def replayRoom : Room :=
  { id := "4242"
    phoneSocket := some 0
    drawerSocket := some 1
    callerSocket := none
    mode := Mode.pictionary
    targetWord := some "pepperoni"
    drawSegments := [seg0, seg1, seg2]
    theme := some "pizza toppings" }

/-! ## Helper lemmas about the string primitives -/

lemma leadMatch_ws_head (a c : Char) (n h : List Char)
    (ha : isJsWs a = true) (hc : isJsWs c = false) :
    leadMatch (c :: n) (a :: h) = false := by
  have hca : c ≠ a := by
    intro e
    rw [e, ha] at hc
    exact Bool.noConfusion hc
  simp [leadMatch, hca]

lemma occursIn_ws_prepend (needle : List Char) (hn : needle ≠ [])
    (hwf : ∀ c ∈ needle, isJsWs c = false) :
    ∀ p x : List Char, (∀ c ∈ p, isJsWs c = true) →
      occursIn needle (p ++ x) = occursIn needle x := by
  intro p
  induction p with
  | nil => intro x _; rfl
  | cons a t ih =>
    intro x hp
    obtain ⟨c, n, rfl⟩ : ∃ c n, needle = c :: n := by
      cases needle with
      | nil => exact absurd rfl hn
      | cons c n => exact ⟨c, n, rfl⟩
    show occursIn (c :: n) (a :: (t ++ x)) = occursIn (c :: n) x
    rw [occursIn]
    rw [leadMatch_ws_head a c n (t ++ x) (hp a (List.mem_cons_self a t))
      (hwf c (List.mem_cons_self c n))]
    rw [Bool.false_or]
    exact ih x (fun d hd => hp d (List.mem_cons_of_mem a hd))

lemma leadMatch_ws_append (needle : List Char)
    (hwf : ∀ c ∈ needle, isJsWs c = false) :
    ∀ y sfx : List Char, (∀ c ∈ sfx, isJsWs c = true) →
      leadMatch needle (y ++ sfx) = leadMatch needle y := by
  induction needle with
  | nil => intro y sfx _; rfl
  | cons c n ih =>
    intro y sfx hs
    cases y with
    | nil =>
      show leadMatch (c :: n) sfx = leadMatch (c :: n) []
      cases sfx with
      | nil => rfl
      | cons a h =>
        rw [leadMatch_ws_head a c n h (hs a (List.mem_cons_self a h))
          (hwf c (List.mem_cons_self c n))]
        rfl
    | cons b y2 =>
      show leadMatch (c :: n) (b :: (y2 ++ sfx)) = leadMatch (c :: n) (b :: y2)
      simp only [leadMatch]
      rw [ih (fun d hd => hwf d (List.mem_cons_of_mem c hd)) y2 sfx hs]

lemma occursIn_ws_append (needle x sfx : List Char) (hn : needle ≠ [])
    (hwf : ∀ c ∈ needle, isJsWs c = false)
    (hs : ∀ c ∈ sfx, isJsWs c = true) :
    occursIn needle (x ++ sfx) = occursIn needle x := by
  induction x with
  | nil =>
    simp only [List.nil_append]
    have h1 := occursIn_ws_prepend needle hn hwf sfx [] hs
    rw [List.append_nil] at h1
    exact h1
  | cons b t ih =>
    show occursIn needle (b :: (t ++ sfx)) = occursIn needle (b :: t)
    rw [occursIn, occursIn]
    have hlead : leadMatch needle ((b :: t) ++ sfx) = leadMatch needle (b :: t) :=
      leadMatch_ws_append needle hwf (b :: t) sfx hs
    rw [List.cons_append] at hlead
    rw [hlead, ih]

lemma trimL_decomp (l : List Char) :
    ∃ p s, (∀ c ∈ p, isJsWs c = true) ∧ (∀ c ∈ s, isJsWs c = true) ∧
      l = p ++ trimL l ++ s := by
  refine ⟨l.takeWhile isJsWs, ((l.dropWhile isJsWs).reverse.takeWhile isJsWs).reverse,
    ?_, ?_, ?_⟩
  · intro c hc
    exact List.mem_takeWhile_imp hc
  · intro c hc
    rw [List.mem_reverse] at hc
    exact List.mem_takeWhile_imp hc
  · conv_lhs => rw [← List.takeWhile_append_dropWhile isJsWs l]
    rw [List.append_assoc]
    congr 1
    unfold trimL
    rw [← List.reverse_append, List.takeWhile_append_dropWhile, List.reverse_reverse]

lemma allWs_of_trimL_nil (l : List Char) (h : trimL l = []) :
    ∀ c ∈ l, isJsWs c = true := by
  obtain ⟨p, s, hp, hs, hl⟩ := trimL_decomp l
  rw [h, List.append_nil] at hl
  intro c hc
  rw [hl] at hc
  rcases List.mem_append.mp hc with h1 | h2
  · exact hp c h1
  · exact hs c h2

lemma occursIn_allWs (needle h : List Char) (hn : needle ≠ [])
    (hwf : ∀ c ∈ needle, isJsWs c = false)
    (hws : ∀ c ∈ h, isJsWs c = true) :
    occursIn needle h = false := by
  have h1 := occursIn_ws_prepend needle hn hwf h [] hws
  rw [List.append_nil] at h1
  rw [h1]
  cases needle with
  | nil => exact absurd rfl hn
  | cons c n => rfl

lemma occursIn_trimL (needle l : List Char) (hn : needle ≠ [])
    (hwf : ∀ c ∈ needle, isJsWs c = false) :
    occursIn needle (trimL l) = occursIn needle l := by
  obtain ⟨p, s, hp, hs, hl⟩ := trimL_decomp l
  conv_rhs => rw [hl]
  rw [List.append_assoc]
  rw [occursIn_ws_prepend needle hn hwf p (trimL l ++ s) hp]
  rw [occursIn_ws_append needle (trimL l) s hn hwf hs]

lemma normChar_ws (c : Char) (h : isJsWs c = true) : normChar c = c := by
  simp [normChar, h]

lemma map_normChar_allWs (p : List Char) (hp : ∀ c ∈ p, isJsWs c = true) :
    p.map normChar = p := by
  induction p with
  | nil => rfl
  | cons a t ih =>
    rw [List.map_cons, normChar_ws a (hp a (List.mem_cons_self a t)),
      ih (fun d hd => hp d (List.mem_cons_of_mem a hd))]

lemma occursIn_normalize_trimL (needle l : List Char) (hn : needle ≠ [])
    (hwf : ∀ c ∈ needle, isJsWs c = false) :
    occursIn needle ((trimL l).map normChar) = occursIn needle (l.map normChar) := by
  obtain ⟨p, s, hp, hs, hl⟩ := trimL_decomp l
  conv_rhs => rw [hl]
  rw [List.map_append, List.map_append, map_normChar_allWs p hp,
    map_normChar_allWs s hs]
  rw [List.append_assoc]
  rw [occursIn_ws_prepend needle hn hwf p ((trimL l).map normChar ++ s) hp]
  rw [occursIn_ws_append needle ((trimL l).map normChar) s hn hwf hs]

lemma jsIncludes_trim (s t : String) (hn : t.data ≠ [])
    (hwf : ∀ c ∈ t.data, isJsWs c = false) :
    jsIncludes (jsTrim s) t = jsIncludes s t :=
  occursIn_trimL t.data s.data hn hwf

/-! ## Invariant preservation -/

lemma pickRandomWord_spec (idx : Nat) :
    pickRandomWord PICTIONARY_WORDS idx ∈ PICTIONARY_WORDS ∧
      pickRandomWord PICTIONARY_WORDS idx ≠ "" := by
  have h5 : idx % PICTIONARY_WORDS.length < 5 :=
    Nat.mod_lt _ (by decide)
  unfold pickRandomWord
  set k := idx % PICTIONARY_WORDS.length with hk
  interval_cases k <;> decide

lemma generate_ne_empty (env : GenEnv) (t : String) :
    generatePictionaryWord env t ≠ "" := by
  simp only [generatePictionaryWord]
  split
  · exact (pickRandomWord_spec env.idx).2
  · split
    · exact (pickRandomWord_spec env.idx).2
    · split
      · exact (pickRandomWord_spec env.idx).2
      · split
        · exact (pickRandomWord_spec env.idx).2
        · assumption

lemma startPictionary_wordOk (room : Room) (idx2 : Nat) (ew : Option String) :
    wordOk (startPictionary room idx2 ew).1 = true := by
  unfold startPictionary wordOk
  cases ew with
  | none => simp [(pickRandomWord_spec idx2).2]
  | some s =>
    by_cases hs : s = ""
    · simp [hs, (pickRandomWord_spec idx2).2]
    · simp [hs]

lemma backToMenu_wordOk (room : Room) : wordOk (backToMenu room).1 = true := rfl

lemma stepRoom_wordOk (room : Room) (e : Event) (h : wordOk room = true) :
    wordOk (stepRoom room e).1 = true := by
  cases e with
  | phoneOpen sock => exact h
  | phonePrompt env textRaw =>
    show wordOk (handlePhonePrompt room env textRaw).1 = true
    simp only [handlePhonePrompt]
    split
    · exact h
    · split
      · exact h
      · split
        · exact startPictionary_wordOk { room with theme := some textRaw } env.idx2
            (some (generatePictionaryWord env textRaw))
        · split
          · exact backToMenu_wordOk room
          · exact h
  | phoneClose => rfl
  | webJoin sock roleRaw =>
    show wordOk (joinWeb room sock roleRaw).1 = true
    simp only [joinWeb]
    repeat' split
    all_goals exact h
  | webDraw sender seg => exact h
  | webChat sender text => exact h
  | webClear sender => exact h
  | webClose sock => exact h

lemma runEvents_wordOk (es : List Event) :
    ∀ room : Room, wordOk room = true → wordOk (runEvents room es).1 = true := by
  induction es with
  | nil => intro room h; exact h
  | cons e t ih =>
    intro room h
    exact ih (stepRoom room e).1 (stepRoom_wordOk room e h)

lemma wordOk_iff (r : Room) (h : wordOk r = true) :
    r.targetWord ≠ none ↔ r.mode = Mode.pictionary := by
  obtain ⟨i, ps, ds, cs, mode, tw, segs, th⟩ := r
  cases mode <;> cases tw <;> simp_all [wordOk]

lemma wordOk_pictionary (r : Room) (h : wordOk r = true)
    (hm : r.mode = Mode.pictionary) :
    ∃ w, r.targetWord = some w ∧ w ≠ "" := by
  obtain ⟨i, ps, ds, cs, mode, tw, segs, th⟩ := r
  cases mode <;> cases tw <;> simp_all [wordOk]

lemma lookupRoom_setRoom (reg : Registry) (rid : String) (room : Room) :
    lookupRoom (setRoom reg rid room) rid = some room := by
  induction reg with
  | nil => simp [setRoom, lookupRoom]
  | cons kv t ih =>
    obtain ⟨k, r⟩ := kv
    by_cases hk : k = rid
    · simp [setRoom, lookupRoom, hk]
    · simp [setRoom, lookupRoom, hk, ih]

/-! ## Claim theorems -/

/-- C1: for every room and after every event-handling step (round
start, guess handling, return to menu, speech-channel close, room
creation), the room's targetWord is non-null if and only if the room's
mode is the active-round (pictionary) mode. -/
theorem targetWord_iff_activeRound (id : String) (es : List Event) :
    (runRoom id es).targetWord ≠ none ↔ (runRoom id es).mode = Mode.pictionary :=
  wordOk_iff (runRoom id es) (runEvents_wordOk es (freshRoom id) rfl)

/-- C5: whatever the prior state, closing the speech channel leaves the
room in menu mode with no target word, no theme, an empty drawing log
and a detached phone slot, broadcasts a status event followed by a menu
event to the attached browsers, and keeps the room in the registry. -/
theorem speechClose_resets_room (reg : Registry) (rid : String) :
    ∃ r2 : Room,
      lookupRoom (phoneCloseOnRegistry reg rid).1 rid = some r2 ∧
      r2.mode = Mode.menu ∧ r2.targetWord = none ∧ r2.theme = none ∧
      r2.drawSegments = [] ∧ r2.phoneSocket = none ∧
      (phoneCloseOnRegistry reg rid).2 =
        sendToWeb r2 (WebMsg.status (callerDisconnectedMsg r2.id)) ++
          sendToWeb r2 WebMsg.menu := by
  refine ⟨(phoneCloseRoom (getRoom reg rid).1).1, ?_, rfl, rfl, rfl, rfl, rfl, rfl⟩
  exact lookupRoom_setRoom (getRoom reg rid).2 rid _

/-- C9 counterexample: in a fresh room, still in menu mode, a
drawSegment message grows the drawing log — entries are not appended
only in active-round mode. -/
theorem menuStroke_appended :
    (freshRoom "4242").mode = Mode.menu ∧
    (stepRoom (freshRoom "4242") (Event.webDraw 3 seg0)).1.drawSegments ≠
      (freshRoom "4242").drawSegments := by decide

/-- C9 amended: a step either leaves the drawing log unchanged, appends
exactly the received segment (for a drawSegment message, in any mode),
or clears the log (clearCanvas, speech-channel close, or the round
start inside a prompt); so within a round the log is append-only and is
cleared only by those three kinds of events. -/
theorem drawLog_evolution (room : Room) (e : Event) :
    (stepRoom room e).1.drawSegments = room.drawSegments ∨
    (∃ s seg, e = Event.webDraw s seg ∧
      (stepRoom room e).1.drawSegments = room.drawSegments ++ [seg]) ∨
    ((stepRoom room e).1.drawSegments = [] ∧
      ((∃ s, e = Event.webClear s) ∨ e = Event.phoneClose ∨
        ∃ env t, e = Event.phonePrompt env t)) := by
  cases e with
  | phoneOpen sock => left; rfl
  | phonePrompt env textRaw =>
    simp only [stepRoom, handlePhonePrompt]
    split
    · left; rfl
    · split
      · left; rfl
      · split
        · right; right
          exact ⟨rfl, Or.inr (Or.inr ⟨env, textRaw, rfl⟩)⟩
        · split
          · left; rfl
          · left; rfl
  | phoneClose => right; right; exact ⟨rfl, Or.inr (Or.inl rfl)⟩
  | webJoin sock roleRaw =>
    left
    simp only [stepRoom, joinWeb]
    split <;> rfl
  | webDraw s seg => right; left; exact ⟨s, seg, rfl, rfl⟩
  | webChat s t => left; rfl
  | webClear s => right; right; exact ⟨rfl, Or.inl ⟨s, rfl⟩⟩
  | webClose sock => left; rfl

/-- C10: a drawerChat message is forwarded to the phone and echoed to
the attached web slots whoever sent it; the handler never inspects the
sender, so a guesser-slot socket triggers the same read-aloud. -/
theorem drawerChat_ignores_sender (room : Room) (sender s2 : Nat) (text : String)
    (p : Nat) (hp : room.phoneSocket = some p) :
    drawerChatHandler room sender text =
      (room,
       Action.toPhone p text ::
       ((match room.drawerSocket with
         | none => []
         | some d => [Action.toWeb d (WebMsg.drawerChat text)]) ++
        (match room.callerSocket with
         | none => []
         | some c => [Action.toWeb c (WebMsg.drawerChat text)]))) ∧
    drawerChatHandler room sender text = drawerChatHandler room s2 text := by
  constructor
  · simp [drawerChatHandler, sendToPhone, hp]
  · rfl

/-- C10 witness: in a full room the guesser-slot socket (id 2) sends a
drawerChat and it is read to the phone and echoed to both slots, the
same as from any other sender. -/
theorem drawerChat_ignores_sender_witness :
    drawerChatHandler (midRoundRoom "pepperoni") 2 "hint" =
      ((midRoundRoom "pepperoni"),
       Action.toPhone 0 "hint" ::
       ([Action.toWeb 1 (WebMsg.drawerChat "hint")] ++
        [Action.toWeb 2 (WebMsg.drawerChat "hint")])) ∧
    drawerChatHandler (midRoundRoom "pepperoni") 2 "hint" =
      drawerChatHandler (midRoundRoom "pepperoni") 5 "hint" :=
  drawerChat_ignores_sender (midRoundRoom "pepperoni") 2 5 "hint" 0 rfl

/-- C4 counterexample: a drawSegment from the guesser-slot socket (id 2,
not the drawer slot) is still appended to the drawing log, so it is not
ignored as the claim states. -/
theorem guesserStroke_still_appended :
    (midRoundRoom "pepperoni").drawerSocket ≠ some 2 ∧
    (drawSegmentHandler (midRoundRoom "pepperoni") 2 seg0).1.drawSegments ≠
      (midRoundRoom "pepperoni").drawSegments := by decide

/-- C4 amended: a drawSegment received from a socket that is not the
current drawer-slot occupant is still appended to the drawing log, but
it is not forwarded to the guesser slot (no action is emitted). -/
theorem nonDrawer_stroke_appended_not_forwarded (room : Room) (sender : Nat)
    (seg : Segment) (h : room.drawerSocket ≠ some sender) :
    drawSegmentHandler room sender seg =
      ({ room with drawSegments := room.drawSegments ++ [seg] }, []) := by
  unfold drawSegmentHandler
  cases hd : room.drawerSocket with
  | none => cases hc : room.callerSocket <;> simp [hd, hc]
  | some d =>
    have hsd : ¬ (sender = d) := by
      intro e
      exact h (by rw [hd, e])
    cases hc : room.callerSocket with
    | none => simp [hd, hc]
    | some c => simp [hd, hc, hsd]

/-- C4 amended witness: a stroke from socket 5 (not the drawer slot) of
a menu-mode room is stored but generates no forward. -/
theorem nonDrawer_stroke_witness :
    drawSegmentHandler menuRoom 5 seg0 =
      ({ menuRoom with drawSegments := [seg0] }, []) :=
  nonDrawer_stroke_appended_not_forwarded menuRoom 5 seg0 (by decide)

/-- C7: in any mode, an utterance whose lower-cased text contains quit
or exit makes the handler send the farewell to the speech channel and
close it, leaving the room state untouched and emitting nothing else —
no round start, no target word, no guess or round-result event. -/
theorem quit_farewell_and_close (room : Room) (env : GenEnv) (textRaw : String)
    (p : Nat) (hp : room.phoneSocket = some p)
    (hq : jsIncludes (jsToLower textRaw) "quit" = true ∨
      jsIncludes (jsToLower textRaw) "exit" = true) :
    handlePhonePrompt room env textRaw =
      (room, [Action.toPhone p farewellMsg, Action.closePhone p]) := by
  have hquit : (jsIncludes (jsTrim (jsToLower textRaw)) "quit" ||
      jsIncludes (jsTrim (jsToLower textRaw)) "exit") = true := by
    rw [jsIncludes_trim _ _ (by decide) (by decide),
      jsIncludes_trim _ _ (by decide) (by decide)]
    rcases hq with h | h <;> simp [h]
  have htext : ¬ (jsTrim (jsToLower textRaw) = "") := by
    intro he
    rw [he] at hquit
    exact absurd hquit (by decide)
  simp only [handlePhonePrompt]
  rw [if_neg htext, if_pos hquit, hp]
  simp [sendToPhone, hp]

/-- C7 witness: during a round, the utterance containing quit triggers
the farewell and the close and nothing else. -/
theorem quit_farewell_and_close_witness :
    handlePhonePrompt (midRoundRoom "pepperoni") failEnv "please quit now" =
      ((midRoundRoom "pepperoni"),
       [Action.toPhone 0 farewellMsg, Action.closePhone 0]) :=
  quit_farewell_and_close (midRoundRoom "pepperoni") failEnv "please quit now" 0
    rfl (Or.inl (by decide))

lemma generate_fallback_mem (env : GenEnv) (t : String)
    (h : env.oracle = Except.error () ∨ jsTrim t = "" ∨
      testRandom (jsTrim t) = true) :
    generatePictionaryWord env t ∈ PICTIONARY_WORDS := by
  simp only [generatePictionaryWord]
  split
  · exact (pickRandomWord_spec env.idx).1
  · split
    · exact (pickRandomWord_spec env.idx).1
    · rename_i hcond
      rcases h with h | h | h
      · rw [h]
        exact (pickRandomWord_spec env.idx).1
      · simp [h] at hcond
      · simp [h] at hcond

/-- C8: generatePictionaryWord answers with a word from the fixed
fallback list whenever the word-source call fails, the trimmed theme is
empty, or the theme matches the random test; and in menu mode a failing
word source still starts the round normally — the fallback word becomes
the target and only the ordinary round-start messages are emitted, no
error. -/
theorem wordSource_fallback_round_starts (env : GenEnv) (themeRaw : String)
    (room : Room) (textRaw : String) :
    ((env.oracle = Except.error () ∨ jsTrim themeRaw = "" ∨
        testRandom (jsTrim themeRaw) = true) →
      generatePictionaryWord env themeRaw ∈ PICTIONARY_WORDS) ∧
    (room.mode = Mode.menu →
      env.oracle = Except.error () →
      ¬ (jsTrim (jsToLower textRaw) = "") →
      jsIncludes (jsToLower textRaw) "quit" = false →
      jsIncludes (jsToLower textRaw) "exit" = false →
      (handlePhonePrompt room env textRaw).1.mode = Mode.pictionary ∧
      (handlePhonePrompt room env textRaw).1.targetWord =
        some (generatePictionaryWord env textRaw) ∧
      generatePictionaryWord env textRaw ∈ PICTIONARY_WORDS ∧
      (handlePhonePrompt room env textRaw).2 =
        sendToPhone room (niceThemeMsg textRaw) ++
          (sendToPhone room greatChoiceMsg ++
            sendToWeb room (WebMsg.pictionaryStart
              (generatePictionaryWord env textRaw)))) := by
  constructor
  · exact generate_fallback_mem env themeRaw
  · intro hm hfail hne hq hx
    have hquit : (jsIncludes (jsTrim (jsToLower textRaw)) "quit" ||
        jsIncludes (jsTrim (jsToLower textRaw)) "exit") = false := by
      rw [jsIncludes_trim _ _ (by decide) (by decide),
        jsIncludes_trim _ _ (by decide) (by decide), hq, hx]
      rfl
    simp only [handlePhonePrompt]
    rw [if_neg hne, if_neg (by simp [hquit]), if_pos hm]
    refine ⟨rfl, ?_, generate_fallback_mem env textRaw (Or.inl hfail), ?_⟩
    · simp [startPictionary, generate_ne_empty env textRaw]
    · simp [startPictionary, generate_ne_empty env textRaw, sendToPhone, sendToWeb]

/-- C8 witness: with a failing word source and the theme utterance
animals, the generated word comes from the fallback list and the round
starts with it as the target word, with only the usual round-start
messages. -/
theorem wordSource_fallback_witness :
    generatePictionaryWord failEnv "animals" ∈ PICTIONARY_WORDS ∧
    ((handlePhonePrompt menuRoom failEnv "animals").1.mode = Mode.pictionary ∧
     (handlePhonePrompt menuRoom failEnv "animals").1.targetWord =
       some (generatePictionaryWord failEnv "animals") ∧
     generatePictionaryWord failEnv "animals" ∈ PICTIONARY_WORDS ∧
     (handlePhonePrompt menuRoom failEnv "animals").2 =
       sendToPhone menuRoom (niceThemeMsg "animals") ++
         (sendToPhone menuRoom greatChoiceMsg ++
           sendToWeb menuRoom (WebMsg.pictionaryStart
             (generatePictionaryWord failEnv "animals")))) :=
  ⟨(wordSource_fallback_round_starts failEnv "animals" menuRoom "animals").1
      (Or.inl rfl),
   (wordSource_fallback_round_starts failEnv "animals" menuRoom "animals").2
      rfl rfl (by decide) (by decide) (by decide)⟩

/-- C3 counterexample: starting a round in a room whose guesser (web
caller) slot is socket 2 sends that socket the pictionaryStart payload
carrying the secret word — the word is not hidden from the guesser
channel. -/
theorem roundStart_word_reaches_guesser :
    menuRoom.callerSocket = some 2 ∧
    Action.toWeb 2 (WebMsg.pictionaryStart "pepperoni") ∈
      (startPictionary menuRoom 0 (some "pepperoni")).2 := by decide

/-- C3 amended: the round-start broadcast sends one and the same
pictionaryStart payload, carrying the secret word, to both the drawer
slot and the guesser slot, and the join-time state event during an
active round also carries the word whatever the joining role; hiding
the word from the guesser happens only in the browser client. -/
theorem roundStart_word_to_both (room : Room) (d c s idx : Nat)
    (ew w : String) (roleRaw : String)
    (hd : room.drawerSocket = some d) (hc : room.callerSocket = some c)
    (hew : ¬ (ew = "")) (hm : room.mode = Mode.pictionary)
    (hw : room.targetWord = some w) (hwne : ¬ (w = "")) :
    (startPictionary room idx (some ew)).2 =
      sendToPhone room greatChoiceMsg ++
        [Action.toWeb d (WebMsg.pictionaryStart ew),
         Action.toWeb c (WebMsg.pictionaryStart ew)] ∧
    (startPictionary room idx (some ew)).1.targetWord = some ew ∧
    Action.toWeb s (WebMsg.pictionaryStart w) ∈ (joinWeb room s roleRaw).2 := by
  refine ⟨?_, ?_, ?_⟩
  · simp [startPictionary, sendToWeb, sendToPhone, hd, hc, hew]
  · simp [startPictionary, hew]
  · by_cases hrole : jsToLower roleRaw = "caller"
    · simp [joinWeb, hrole, hm, hw, hwne, hd, hc]
    · simp [joinWeb, hrole, hm, hw, hwne, hd, hc]

/-- C3 amended witness: in a mid-round room the broadcast carries the
word pepperoni to the drawer socket 1 and the guesser socket 2, and a
caller-role join on socket 7 receives the word too. -/
theorem roundStart_word_to_both_witness :
    (startPictionary (midRoundRoom "pepperoni") 0 (some "pepperoni")).2 =
      sendToPhone (midRoundRoom "pepperoni") greatChoiceMsg ++
        [Action.toWeb 1 (WebMsg.pictionaryStart "pepperoni"),
         Action.toWeb 2 (WebMsg.pictionaryStart "pepperoni")] ∧
    (startPictionary (midRoundRoom "pepperoni") 0
        (some "pepperoni")).1.targetWord = some "pepperoni" ∧
    Action.toWeb 7 (WebMsg.pictionaryStart "pepperoni") ∈
      (joinWeb (midRoundRoom "pepperoni") 7 "caller").2 :=
  roundStart_word_to_both (midRoundRoom "pepperoni") 1 2 7 0 "pepperoni"
    "pepperoni" "caller" rfl rfl (by decide) rfl rfl (by decide)

/-- C2 counterexample: with the target word rubber-tab-duck (tab between
the words) the spec rule — first whitespace-delimited token of the
target contained in the normalized utterance — accepts the utterance
rubber, but the code splits the target at space characters only, so the
guess is judged wrong (the handler answers try-again, not correct). -/
theorem guess_rule_diverges_on_tab :
    specGuessCorrect tabbedTarget "rubber" = true ∧
    (midRoundRoom tabbedTarget).mode = Mode.pictionary ∧
    (midRoundRoom tabbedTarget).targetWord = some tabbedTarget ∧
    (handlePhonePrompt (midRoundRoom tabbedTarget) failEnv "rubber").1.mode ≠
      Mode.menu ∧
    (handlePhonePrompt (midRoundRoom tabbedTarget) failEnv "rubber").2 =
      sendToPhone (midRoundRoom tabbedTarget) tryAgainMsg ++
        sendToWeb (midRoundRoom tabbedTarget) (WebMsg.guess "rubber" false) := by
  decide

/-- C2 amended: the guess is judged correct exactly when the lower-cased
utterance, with punctuation replaced by whitespace, contains the first
space-delimited chunk of the lower-cased target word (split at the
space character only, not at all whitespace), provided that chunk is
non-empty and free of whitespace — which holds for every reachable
target word.  Judged correct is observed as the handler returning the
room to menu mode. -/
theorem guess_eval_matches_code_rule (room : Room) (env : GenEnv)
    (textRaw w : String)
    (hm : room.mode = Mode.pictionary) (hw : room.targetWord = some w)
    (hq : jsIncludes (jsToLower textRaw) "quit" = false)
    (hx : jsIncludes (jsToLower textRaw) "exit" = false)
    (htok : (jsSplitFirst (jsToLower w)).data ≠ [])
    (htokws : ∀ ch ∈ (jsSplitFirst (jsToLower w)).data, isJsWs ch = false) :
    ((handlePhonePrompt room env textRaw).1.mode = Mode.menu ↔
      jsIncludes (normalizeGuess (jsToLower textRaw))
        (jsSplitFirst (jsToLower w)) = true) := by
  by_cases hempty : jsTrim (jsToLower textRaw) = ""
  · have hdata : trimL (jsToLower textRaw).data = [] := congrArg String.data hempty
    have hall := allWs_of_trimL_nil (jsToLower textRaw).data hdata
    have hrhs : jsIncludes (normalizeGuess (jsToLower textRaw))
        (jsSplitFirst (jsToLower w)) = false := by
      show occursIn (jsSplitFirst (jsToLower w)).data
        ((jsToLower textRaw).data.map normChar) = false
      rw [map_normChar_allWs _ hall]
      exact occursIn_allWs _ _ htok htokws hall
    simp only [handlePhonePrompt]
    rw [if_pos hempty]
    constructor
    · intro h
      exact absurd (hm.symm.trans h) (by decide)
    · intro h
      rw [hrhs] at h
      exact absurd h (by decide)
  · have hbridge : jsIncludes (normalizeGuess (jsTrim (jsToLower textRaw)))
        (jsSplitFirst (jsToLower w)) =
        jsIncludes (normalizeGuess (jsToLower textRaw))
          (jsSplitFirst (jsToLower w)) :=
      occursIn_normalize_trimL (jsSplitFirst (jsToLower w)).data
        (jsToLower textRaw).data htok htokws
    have hquit : (jsIncludes (jsTrim (jsToLower textRaw)) "quit" ||
        jsIncludes (jsTrim (jsToLower textRaw)) "exit") = false := by
      rw [jsIncludes_trim _ _ (by decide) (by decide),
        jsIncludes_trim _ _ (by decide) (by decide), hq, hx]
      rfl
    have hwne : ¬ (jsToLower w = "") := by
      intro he
      exact htok (by rw [he]; rfl)
    have hmatch : guessMatches room.targetWord (jsTrim (jsToLower textRaw)) =
        jsIncludes (normalizeGuess (jsToLower textRaw))
          (jsSplitFirst (jsToLower w)) := by
      simp [guessMatches, hw, hwne, hbridge]
    have hmneq : ¬ (room.mode = Mode.menu) := by
      rw [hm]
      decide
    simp only [handlePhonePrompt]
    rw [if_neg hempty, if_neg (by simp [hquit]), if_neg hmneq]
    by_cases hgm : guessMatches room.targetWord (jsTrim (jsToLower textRaw)) = true
    · rw [if_pos hgm]
      rw [hmatch] at hgm
      exact iff_of_true rfl hgm
    · rw [if_neg hgm]
      refine iff_of_false (fun h => hmneq h) (fun h => hgm ?_)
      rw [hmatch]
      exact h

/-- C2 amended witness: against the target rubber duck, the utterance
with the apostrophe (it has a rubber band) is judged correct — it
contains rubber — while oh a duck is not. -/
theorem guess_eval_matches_code_rule_witness :
    (handlePhonePrompt (midRoundRoom "rubber duck") failEnv
        rubberBandUtterance).1.mode = Mode.menu ∧
    ¬ ((handlePhonePrompt (midRoundRoom "rubber duck") failEnv
        "oh a duck").1.mode = Mode.menu) :=
  ⟨(guess_eval_matches_code_rule (midRoundRoom "rubber duck") failEnv
      rubberBandUtterance "rubber duck" rfl rfl (by decide) (by decide)
      (by decide) (by decide)).mpr (by decide),
   fun h => absurd
     ((guess_eval_matches_code_rule (midRoundRoom "rubber duck") failEnv
        "oh a duck" "rubber duck" rfl rfl (by decide) (by decide)
        (by decide) (by decide)).mp h) (by decide)⟩

/-- C6: a browser channel claiming a slot receives, in order, a status
event, then (exactly when the drawing log is non-empty) exactly one
initDrawing event with the recorded segments in append order, then the
mode-appropriate state event (pictionaryStart during a round, menu
otherwise); and every message of later events to that socket comes
after the join messages, so the replay precedes any live stroke. -/
theorem replay_on_join (room : Room) (sock : Nat) (roleRaw : String) (later : List Event)
    (hinv : wordOk room = true) :
    ∃ st stEv,
      msgsTo sock (joinWeb room sock roleRaw).2 =
        WebMsg.status st ::
          ((if room.drawSegments.length > 0 then
              [WebMsg.initDrawing room.drawSegments] else []) ++ [stEv]) ∧
      (room.mode = Mode.pictionary →
        ∃ w, room.targetWord = some w ∧ stEv = WebMsg.pictionaryStart w) ∧
      (room.mode = Mode.menu → stEv = WebMsg.menu) ∧
      msgsTo sock (runEvents room (Event.webJoin sock roleRaw :: later)).2 =
        msgsTo sock (joinWeb room sock roleRaw).2 ++
          msgsTo sock (runEvents (joinWeb room sock roleRaw).1 later).2 := by
  have hstep : msgsTo sock (runEvents room (Event.webJoin sock roleRaw :: later)).2 =
      msgsTo sock (joinWeb room sock roleRaw).2 ++
        msgsTo sock (runEvents (joinWeb room sock roleRaw).1 later).2 := by
    show msgsTo sock ((joinWeb room sock roleRaw).2 ++
      (runEvents (joinWeb room sock roleRaw).1 later).2) = _
    simp [msgsTo, List.filterMap_append]
  cases hps : room.phoneSocket with
  | none =>
    cases hmode : room.mode with
    | menu =>
      refine ⟨joinStatusNoPhone room.id, WebMsg.menu, ?_, ?_, ?_, hstep⟩
      · by_cases hrole : jsToLower roleRaw = "caller" <;>
          by_cases hseg : room.drawSegments.length > 0 <;>
          simp [joinWeb, msgsTo, hrole, hps, hmode, hseg]
      · intro hpm
        exact absurd hpm (by decide)
      · intro _
        rfl
    | pictionary =>
      obtain ⟨w, hw, hwne⟩ := wordOk_pictionary room hinv hmode
      refine ⟨joinStatusNoPhone room.id, WebMsg.pictionaryStart w, ?_, ?_, ?_, hstep⟩
      · by_cases hrole : jsToLower roleRaw = "caller" <;>
          by_cases hseg : room.drawSegments.length > 0 <;>
          simp [joinWeb, msgsTo, hrole, hps, hmode, hseg, hw, hwne]
      · intro _
        exact ⟨w, hw, rfl⟩
      · intro hpm
        exact absurd hpm (by decide)
  | some q =>
    cases hmode : room.mode with
    | menu =>
      refine ⟨joinStatusWithPhone room.id Mode.menu, WebMsg.menu, ?_, ?_, ?_, hstep⟩
      · by_cases hrole : jsToLower roleRaw = "caller" <;>
          by_cases hseg : room.drawSegments.length > 0 <;>
          simp [joinWeb, msgsTo, hrole, hps, hmode, hseg]
      · intro hpm
        exact absurd hpm (by decide)
      · intro _
        rfl
    | pictionary =>
      obtain ⟨w, hw, hwne⟩ := wordOk_pictionary room hinv hmode
      refine ⟨joinStatusWithPhone room.id Mode.pictionary,
        WebMsg.pictionaryStart w, ?_, ?_, ?_, hstep⟩
      · by_cases hrole : jsToLower roleRaw = "caller" <;>
          by_cases hseg : room.drawSegments.length > 0 <;>
          simp [joinWeb, msgsTo, hrole, hps, hmode, hseg, hw, hwne]
      · intro _
        exact ⟨w, hw, rfl⟩
      · intro hpm
        exact absurd hpm (by decide)

/-- C6 witness: a guesser joining the replay room (three recorded
strokes, round running on pepperoni) before a live stroke arrives. -/
theorem replay_on_join_witness :
    ∃ st stEv,
      msgsTo 7 (joinWeb replayRoom 7 "caller").2 =
        WebMsg.status st ::
          ((if replayRoom.drawSegments.length > 0 then
              [WebMsg.initDrawing replayRoom.drawSegments] else []) ++ [stEv]) ∧
      (replayRoom.mode = Mode.pictionary →
        ∃ w, replayRoom.targetWord = some w ∧ stEv = WebMsg.pictionaryStart w) ∧
      (replayRoom.mode = Mode.menu → stEv = WebMsg.menu) ∧
      msgsTo 7 (runEvents replayRoom
          (Event.webJoin 7 "caller" :: [Event.webDraw 1 seg3])).2 =
        msgsTo 7 (joinWeb replayRoom 7 "caller").2 ++
          msgsTo 7 (runEvents (joinWeb replayRoom 7 "caller").1
            [Event.webDraw 1 seg3]).2 :=
  replay_on_join replayRoom 7 "caller" [Event.webDraw 1 seg3] (by decide)

end Hotline
